import Mathlib

/-! devbook-server: a shallow embedding of the authentication and request-handling core.

Go strings are embedded as Lean `String`s, Go `error` values as `Option GoError`
(`none` is the nil error), and the collaborators outside the repository (the JSON
codec, the JWT library, bcrypt, the UUID parser, the database pool) are taken as
parameters of the functions that call them.
-/

namespace Devbook

/-! ## fmt -/

/-- The part of `fmt.Sprintf` used by the repository: the verbs `%%` and `%s`
applied to string operands, every other byte of the format copied through. -/
def SprintfChars : List Char → List String → List Char
  | [], _ => []
  | [c], _ => [c]
  | c :: d :: rest, args =>
    if c = '%' then
      if d = '%' then '%' :: SprintfChars rest args
      else if d = 's' then
        match args with
        | a :: as => a.data ++ SprintfChars rest as
        | [] => "%!s(MISSING)".data ++ SprintfChars rest []
      else c :: SprintfChars (d :: rest) args
    else c :: SprintfChars (d :: rest) args

/-- Go `fmt.Sprintf(format, args...)` for string operands. -/
def Sprintf (format : String) (args : List String) : String :=
  ⟨SprintfChars format.data args⟩

/-! ## internal/models -/

/-- Go `models.UserPayload`. -/
structure UserPayload where
  Name : String
  Nick : String
  Email : String
  Password : String
  deriving DecidableEq, Repr

/-- Go `models.MissingFieldError`. -/
structure MissingFieldError where
  Field : String
  Message : String
  deriving DecidableEq, Repr

/-- Go `(*MissingFieldError).Error`. -/
def MissingFieldError.Error (e : MissingFieldError) : String :=
  Sprintf "the field %s %s" [e.Field, e.Message]

/-- Go `(*UserPayload).ValidateFields`: the `switch` is tried case by case from the top;
`none` is the nil error. -/
def ValidateFields (payload : UserPayload) (mode : String) : Option MissingFieldError :=
  if payload.Name = "" then
    some { Field := "name", Message := "is required" }
  else if payload.Nick = "" then
    some { Field := "nick", Message := "is required" }
  else if payload.Email = "" then
    some { Field := "email", Message := "is required" }
  else if payload.Password = "" ∧ mode = "cadastro" then
    some { Field := "password", Message := "is required" }
  else
    none

/-- The fields the specification requires, in its stated order: name, nick, email, and
the password only in the creation mode. -/
def requiredFieldsSpec (mode : String) : List (String × (UserPayload → String)) :=
  [("name", UserPayload.Name), ("nick", UserPayload.Nick), ("email", UserPayload.Email)]
    ++ (if mode = "cadastro" then [("password", UserPayload.Password)] else [])

/-- The reference definition of field validation, following the specification's words:
the error names the first required field that is empty, with the message "is required";
there is no error when no required field is empty. -/
def ValidateFieldsSpec (payload : UserPayload) (mode : String) : Option MissingFieldError :=
  ((requiredFieldsSpec mode).find? (fun f => f.2 payload = "")).map
    (fun f => { Field := f.1, Message := "is required" })

/-! ## strings -/

/-- Go `strings.Split(s, sep)` for a one-byte separator, on the characters of `s`: the
pieces between consecutive occurrences of the separator, in order; a string without the
separator is returned whole, so the result always has at least one piece. -/
def SplitChars (sep : Char) : List Char → List (List Char)
  | [] => [[]]
  | c :: cs =>
    if c = sep then [] :: SplitChars sep cs
    else
      match SplitChars sep cs with
      | [] => [[c]]
      | p :: ps => (c :: p) :: ps

/-- Go `strings.Split(s, sep)` with `sep` a one-byte string. -/
def Split (s : String) (sep : Char) : List String :=
  (SplitChars sep s.data).map String.mk

/-! ## time -/

/-- Go `time.Time` as an instant: whole seconds since the Unix epoch and the nanoseconds
within that second (`0 ≤ nsec < 10^9`). -/
structure Time where
  sec : Int
  nsec : Int
  deriving DecidableEq, Repr

/-- Go `time.Hour`, a `Duration` in nanoseconds. -/
def Hour : Int := 60 * (60 * (1000 * (1000 * 1000)))

/-- Go `Time.Add(d)`: the duration is cut into whole seconds and a nanosecond remainder
(Go's `/` and `%` truncate toward zero), the remainder is added to the nanosecond field
and a carry or borrow is moved into the seconds. -/
def Time.Add (t : Time) (d : Int) : Time :=
  let dsec := Int.tdiv d 1000000000
  let nsec := t.nsec + Int.tmod d 1000000000
  if nsec ≥ 1000000000 then { sec := t.sec + (dsec + 1), nsec := nsec - 1000000000 }
  else if nsec < 0 then { sec := t.sec + (dsec - 1), nsec := nsec + 1000000000 }
  else { sec := t.sec + dsec, nsec := nsec }

/-- Go `Time.Unix()`. -/
def Time.Unix (t : Time) : Int := t.sec

/-! ## Errors -/

deriving instance DecidableEq for Except

/-- The Go `error` values that travel through the handlers. `errors.Is` and `errors.As`
are tests on the constructor. -/
inductive GoError where
  /-- A value made by `errors.New(msg)`. -/
  | New (msg : String)
  /-- A `*models.MissingFieldError`. -/
  | MissingField (e : MissingFieldError)
  /-- The value `bcrypt.ErrPasswordTooLong`. -/
  | ErrPasswordTooLong
  /-- The value `pgx.ErrNoRows`. -/
  | ErrNoRows
  /-- The value `fmt.Errorf("unexpected signing method: %v", alg)`. -/
  | UnexpectedSigningMethod (alg : Option String)
  /-- Any other error of a collaborator, with its text. -/
  | Other (msg : String)
  deriving DecidableEq, Repr

/-! ## jwt (collaborator types) -/

/-- The dynamic values a claim can hold. -/
inductive ClaimValue where
  | str (s : String)
  | int (n : Int)
  | bool (b : Bool)
  | null
  deriving DecidableEq, Repr

/-- Go `jwt.MapClaims`, a map from claim names to values, as an association list. -/
abbrev MapClaims := List (String × ClaimValue)

/-- Go `jwt.Claims`: the interface value held by a token. -/
inductive Claims where
  | MapClaims (m : MapClaims)
  | RegisteredClaims
  deriving DecidableEq, Repr

/-- Go `jwt.SigningMethod` values. -/
inductive SigningMethod where
  | HS256 | HS384 | HS512
  | RS256 | ES256 | PS256 | EdDSA | None
  deriving DecidableEq, Repr

/-- The test `t.Method.(*jwt.SigningMethodHMAC)`. -/
def SigningMethod.isHMAC : SigningMethod → Bool
  | .HS256 | .HS384 | .HS512 => true
  | _ => false

/-- Go `SigningMethod.Alg()`. -/
def SigningMethod.Alg : SigningMethod → String
  | .HS256 => "HS256" | .HS384 => "HS384" | .HS512 => "HS512"
  | .RS256 => "RS256" | .ES256 => "ES256" | .PS256 => "PS256"
  | .EdDSA => "EdDSA" | .None => "none"

/-- Go `jwt.Token`. -/
structure Token where
  Method : SigningMethod
  Header : List (String × String)
  Claims : Claims
  Valid : Bool
  deriving DecidableEq, Repr

/-- Go `jwt.NewWithClaims(method, claims)`. -/
def NewWithClaims (method : SigningMethod) (claims : Claims) : Token :=
  { Method := method, Header := [("typ", "JWT"), ("alg", method.Alg)], Claims := claims,
    Valid := false }

/-- The key function handed to `jwt.Parse`. -/
abbrev Keyfunc := Token → Except GoError String

/-- The signature of `jwt.Parse(tokenString, keyFunc)`. -/
abbrev JwtParse := String → Keyfunc → Except GoError Token

/-- The signature of `(*jwt.Token).SignedString(key)`. -/
abbrev JwtSign := Token → String → Except GoError String

/-! ## internal/security -/

/-- Go `security.GenerateToken`; `now` is `time.Now()`, `secret` is
`os.Getenv("JWT_SECRET")` and `SignedString` is the signing routine of the JWT library. -/
def GenerateToken (SignedString : JwtSign) (secret : String) (now : Time) (userId : String) :
    Except GoError String :=
  let claims : MapClaims :=
    [("exp", .int ((now.Add (Hour * 2)).Unix)), ("iss", .str "devbook"), ("sub", .str userId)]
  let jwt := NewWithClaims .HS256 (.MapClaims claims)
  SignedString jwt secret

/-- Go `security.extractToken`. -/
def extractToken (header : String) : String :=
  let h := Split header ' '
  if h.length ≠ 2 ∨ h.getD 0 "" ≠ "Bearer" then ""
  else h.getD 1 ""

/-- The key function `ValidateToken` passes to the parser. -/
def validateKeyfunc (secret : String) : Keyfunc := fun t =>
  if ¬ t.Method.isHMAC then .error (.UnexpectedSigningMethod (t.Header.lookup "alg"))
  else .ok secret

/-- Go `security.ValidateToken`; `Parse` is `jwt.Parse`. -/
def ValidateToken (Parse : JwtParse) (secret : String) (header : String) :
    Except GoError Token :=
  let tokenString := extractToken header
  if tokenString = "" then .error (.New "missing or invalid token")
  else
    match Parse tokenString (validateKeyfunc secret) with
    | .error err => .error err
    | .ok token =>
      match token.Claims with
      | .MapClaims _ => if ¬ token.Valid then .error (.New "invalid token") else .ok token
      | _ => .error (.New "invalid token")

/-! ## uuid (collaborator) -/

/-- Go `uuid.UUID`, an array of 16 bytes. -/
abbrev UUID := List Nat

/-- Go `uuid.Nil`, the all-zero identifier. -/
def uuidNil : UUID := List.replicate 16 0

/-- The bytes of a Go string: the UTF-8 encoding of its characters. -/
def goBytes (s : String) : List Nat :=
  s.data.flatMap (fun c => (String.utf8EncodeChar c).map UInt8.toNat)

/-- The table `xvalues` of the UUID library: the value of a hexadecimal digit. -/
def xvalue (b : Nat) : Option Nat :=
  if 48 ≤ b ∧ b ≤ 57 then some (b - 48)
  else if 65 ≤ b ∧ b ≤ 70 then some (b - 55)
  else if 97 ≤ b ∧ b ≤ 102 then some (b - 87)
  else none

/-- The helper `xtob` of the UUID library: two hexadecimal digits to a byte. -/
def xtob (x1 x2 : Nat) : Option Nat :=
  match xvalue x1, xvalue x2 with
  | some b1, some b2 => some (b1 * 16 + b2)
  | _, _ => none

/-- The bytes of `s` decoded two digits at a time from the given offsets. -/
def hexPairs (s : List Nat) : List Nat → Option UUID
  | [] => some []
  | x :: xs =>
    match xtob (s.getD x 0) (s.getD (x + 1) 0), hexPairs s xs with
    | some v, some rest => some (v :: rest)
    | _, _ => none

/-- ASCII lower-casing of a byte. -/
def lowerByte (b : Nat) : Nat := if 65 ≤ b ∧ b ≤ 90 then b + 32 else b

/-- A model of `uuid.Parse` of the UUID library: the forms
`xxxxxxxx-xxxx-xxxx-xxxx-xxxxxxxxxxxx`, the same behind `urn:uuid:` or between one
leading and one trailing byte, and 32 hexadecimal digits. -/
def uuidParse (str : String) : Except GoError UUID :=
  let s := goBytes str
  let dashed (s : List Nat) : Except GoError UUID :=
    if s.getD 8 0 ≠ 45 ∨ s.getD 13 0 ≠ 45 ∨ s.getD 18 0 ≠ 45 ∨ s.getD 23 0 ≠ 45 then
      .error (.New "invalid UUID format")
    else
      match hexPairs s [0, 2, 4, 6, 9, 11, 14, 16, 19, 21, 24, 26, 28, 30, 32, 34] with
      | some u => .ok u
      | none => .error (.New "invalid UUID format")
  if s.length = 36 then dashed s
  else if s.length = 36 + 9 then
    if (s.take 9).map lowerByte ≠ goBytes "urn:uuid:" then .error (.New "invalid urn prefix")
    else dashed (s.drop 9)
  else if s.length = 36 + 2 then dashed (s.drop 1)
  else if s.length = 32 then
    match hexPairs s [0, 2, 4, 6, 8, 10, 12, 14, 16, 18, 20, 22, 24, 26, 28, 30] with
    | some u => .ok u
    | none => .error (.New "invalid UUID format")
  else .error (.New "invalid UUID length")

/-- A lower-case hexadecimal digit. -/
def hexDigit (n : Nat) : Char :=
  if n < 10 then Char.ofNat (48 + n) else Char.ofNat (87 + n)

/-- The two hexadecimal digits of each byte. -/
def encodeHex (bs : List Nat) : List Char :=
  bs.flatMap (fun b => [hexDigit (b / 16), hexDigit (b % 16)])

/-- A model of `UUID.String()`: the form `xxxxxxxx-xxxx-xxxx-xxxx-xxxxxxxxxxxx`. -/
def UUID.String (u : UUID) : String :=
  ⟨encodeHex (u.take 4) ++ '-' :: encodeHex ((u.drop 4).take 2) ++ '-' ::
    encodeHex ((u.drop 6).take 2) ++ '-' :: encodeHex ((u.drop 8).take 2) ++ '-' ::
    encodeHex (u.drop 10)⟩

/-! ## internal/models: responses -/

/-- Go `models.UserResponse`. -/
structure UserResponse where
  ID : UUID
  Name : String
  Nick : String
  Email : String
  CreatedAt : Time
  deriving DecidableEq, Repr

/-- Go `models.NewUserResponse` (the pointer is dereferenced). -/
def NewUserResponse (id : UUID) (up : UserPayload) (createdAt : Time) : UserResponse :=
  { ID := id, Name := up.Name, Nick := up.Nick, Email := up.Email, CreatedAt := createdAt }

/-- The non-nil values the handlers store in the `Data any` field of the envelope. -/
inductive Any where
  /-- A `string` (the token). -/
  | String (s : String)
  /-- A non-nil `*models.UserResponse`. -/
  | UserResponsePtr (u : UserResponse)
  /-- A `models.UserResponse`. -/
  | UserResponse (u : UserResponse)
  /-- A non-nil `[]models.UserResponse`. -/
  | UserResponses (us : List UserResponse)
  deriving DecidableEq, Repr

/-- Go `models.Response`; `Data = none` is the nil interface. -/
structure Response where
  Data : Option Any := none
  Error : String := ""
  deriving DecidableEq, Repr

/-! ## encoding/json and net/http (collaborators) -/

/-- The JSON object written for an envelope. Both fields are tagged `omitempty`: the member
`data` is present exactly when `Data` is not nil and holds its JSON text, the member
`error` is present exactly when `Error` is not the empty string. -/
structure Body where
  data : Option String
  error : Option String
  deriving DecidableEq, Repr

/-- Go `json.Marshal(resp)` for an envelope; `enc` is the encoder of the data
(`none` when it fails). An envelope without data always encodes. -/
def Marshal (enc : Any → Option String) (resp : Response) : Option Body :=
  let err := if resp.Error = "" then none else some resp.Error
  match resp.Data with
  | none => some { data := none, error := err }
  | some d =>
    match enc d with
    | none => none
    | some text => some { data := some text, error := err }

/-- What a handler does to its `http.ResponseWriter`. -/
inductive WEvent where
  | WriteHeader (status : Nat)
  | Write (data : Body)
  deriving DecidableEq, Repr

/-- The `http.ResponseWriter` as the sequence of calls made on it (the header map is not
part of the model). -/
abbrev ResponseWriter := List WEvent

/-! ## pkg -/

/-- Go `pkg.SendJSON`. When the envelope does not encode the function calls itself with the
generic error envelope, which has no data and so encodes. -/
def SendJSON (enc : Any → Option String) (w : ResponseWriter) (resp : Response)
    (status : Nat) : ResponseWriter :=
  match h : Marshal enc resp with
  | none => SendJSON enc w { Error := "something went wrong" } 500
  | some data => w ++ [.WriteHeader status, .Write data]
termination_by (if resp.Data.isSome then 1 else 0)
decreasing_by
  cases hd : resp.Data with
  | none => simp [Marshal, hd] at h
  | some d => simp

/-- Go `pkg.VerifyUUID`; `Parse` is `uuid.Parse`. -/
def VerifyUUID (enc : Any → Option String) (Parse : String → Except GoError UUID)
    (w : ResponseWriter) (param : String) : UUID × ResponseWriter :=
  match Parse param with
  | .error _ => (uuidNil, SendJSON enc w { Error := "invalid uuid" } 400)
  | .ok id => (id, w)

/-! ## internal/storage -/

/-- The result set of `db.Query`: the outcome of `rows.Scan` on each row and the value of
`rows.Err()` after the last row. -/
structure Rows where
  scans : List (Except GoError UserResponse)
  err : Option GoError

/-- A value bound to a placeholder of a statement. -/
inductive SqlArg where
  | text (s : String)
  | uuid (u : UUID)
  deriving DecidableEq, Repr

/-- The signature of `db.Query(ctx, sql, args...)`. -/
abbrev DbQuery := String → List SqlArg → Except GoError Rows

/-- The statement text built by `PgStore.GetUsers` (its variable `q`). -/
def GetUsersQuery (param : String) : String :=
  Sprintf
    "SELECT id, name, nick, email, created_at FROM users WHERE name ILIKE '%%%s%%' OR nick ILIKE '%%%s%%'"
    [param, param]

/-- The loop of `PgStore.GetUsers` over the rows; `users = none` is the nil slice. -/
def scanUsers : List (Except GoError UserResponse) → Option (List UserResponse) →
    Except GoError (Option (List UserResponse))
  | [], users => .ok users
  | .error err :: _, _ => .error err
  | .ok u :: rest, users => scanUsers rest (some (users.getD [] ++ [u]))

/-- Go `(*PgStore).GetUsers`. -/
def PgStore.GetUsers (Query : DbQuery) (param : String) :
    Except GoError (Option (List UserResponse)) :=
  let q := GetUsersQuery param
  match Query q [] with
  | .error err => .error err
  | .ok rows =>
    match scanUsers rows.scans none with
    | .error err => .error err
    | .ok users =>
      match rows.err with
      | some err => .error err
      | none => .ok users

/-- The statement text and the bound values that `(*PgStore).GetUserByID` passes to
`db.QueryRow`. -/
def GetUserByIDQuery (id : UUID) : String × List SqlArg :=
  ("SELECT id, name, nick, email, created_at FROM users WHERE id = $1", [.uuid id])

/-- The methods of `storage.PgStore` as the handlers see them. An `error` result is
`Option GoError`, `none` being nil. -/
structure Store where
  CreateUser : UserPayload → Except GoError UserResponse
  GetUsers : String → Except GoError (Option (List UserResponse))
  GetUserByID : UUID → Except GoError UserResponse
  UpdateUser : UUID → UserPayload → Option GoError
  DeleteUser : UUID → Option GoError
  GetUserByEmail : String → Except GoError (UUID × String)

/-! ## internal/api -/

/-- The collaborators of the handlers. -/
structure Env where
  /-- The store `h.q`. -/
  q : Store
  /-- The encoder `json.Marshal` applies to the data of an envelope. -/
  enc : Any → Option String
  /-- The function `bcrypt.GenerateFromPassword(password, bcrypt.DefaultCost)`. -/
  GenerateFromPassword : String → Except GoError String
  /-- The function `bcrypt.CompareHashAndPassword(hashedPassword, password)`. -/
  CompareHashAndPassword : String → String → Option GoError
  /-- The function `uuid.Parse`. -/
  uuidParse : String → Except GoError UUID
  /-- The method `(*jwt.Token).SignedString`. -/
  SignedString : JwtSign
  /-- The function `jwt.Parse`. -/
  jwtParse : JwtParse
  /-- The value of `os.Getenv("JWT_SECRET")`. -/
  secret : String
  /-- The value of `time.Now()`. -/
  now : Time
  /-- The function `strings.ToLower`. -/
  ToLower : String → String

/-- What a handler reads from the `*http.Request`. -/
structure Request where
  /-- The value of `r.Header.Get("Authorization")`. -/
  Authorization : String := ""
  /-- The value of `chi.URLParam(r, "id")`. -/
  id : String := ""
  /-- The value of `r.URL.Query().Get("user")`. -/
  user : String := ""
  /-- The payload `json.NewDecoder(r.Body).Decode` yields, `none` when it fails. -/
  Body : Option UserPayload := none
  deriving DecidableEq, Repr

/-- A call a handler makes on a collaborator. -/
inductive Call where
  | EncryptPassword (password : String)
  | ValidatePasswords (hashedPassword password : String)
  | GenerateToken (userId : String)
  | CreateUser (u : UserPayload)
  | GetUsers (param : String)
  | GetUserByID (id : UUID)
  | UpdateUser (id : UUID) (payload : UserPayload)
  | DeleteUser (id : UUID)
  | GetUserByEmail (email : String)
  /-- The handler wrapped by a middleware was entered. -/
  | Next
  deriving DecidableEq, Repr

/-- The observable state of one request: the calls on the response writer, the calls
made on the collaborators so far, and whether the goroutine panicked. -/
structure State where
  w : ResponseWriter := []
  calls : List Call := []
  panicked : Bool := false
  deriving DecidableEq, Repr

/-- The state after a call on a collaborator has been recorded. -/
def State.call (s : State) (c : Call) : State :=
  { s with calls := s.calls ++ [c] }

/-- Go `http.HandlerFunc`. -/
abbrev HandlerFunc := Request → State → State

/-- Go `security.EncryptPassword`. -/
def EncryptPassword (env : Env) (password : String) : Except GoError String :=
  env.GenerateFromPassword password

/-- Go `security.ValidatePasswords`. -/
def ValidatePasswords (env : Env) (hashedPassword password : String) : Option GoError :=
  env.CompareHashAndPassword hashedPassword password

/-- Go `(*UserPayload).PrepareUser`: the error, the payload after the call (its password
replaced by the hash on success) and the state. -/
def PrepareUser (env : Env) (payload : UserPayload) (s : State) :
    Option GoError × UserPayload × State :=
  match ValidateFields payload "cadastro" with
  | some err => (some (.MissingField err), payload, s)
  | none =>
    let s := s.call (.EncryptPassword payload.Password)
    match EncryptPassword env payload.Password with
    | .error err => (some err, payload, s)
    | .ok encondedPassword => (none, { payload with Password := encondedPassword }, s)

/-- Go `(*handler).handleLogin`. -/
def handleLogin (env : Env) : HandlerFunc := fun r s =>
  match r.Body with
  | none => { s with w := SendJSON env.enc s.w { Error := "invalid body" } 422 }
  | some loginPayload =>
    let s := s.call (.GetUserByEmail loginPayload.Email)
    match env.q.GetUserByEmail loginPayload.Email with
    | .error err =>
      if err = .ErrNoRows then
        { s with w := SendJSON env.enc s.w { Error := "user not found" } 404 }
      else
        { s with w := SendJSON env.enc s.w { Error := "something wetn wrong" } 500 }
    | .ok (userId, password) =>
      let s := s.call (.ValidatePasswords password loginPayload.Password)
      match ValidatePasswords env password loginPayload.Password with
      | some _ =>
        { s with w := SendJSON env.enc s.w { Error := "email or password invalids" } 401 }
      | none =>
        let s := s.call (.GenerateToken (UUID.String userId))
        match GenerateToken env.SignedString env.secret env.now (UUID.String userId) with
        | .error _ =>
          { s with w := SendJSON env.enc s.w { Error := "something wetn wrong" } 500 }
        | .ok token => { s with w := SendJSON env.enc s.w { Data := some (.String token) } 200 }

/-- Go `(*handler).handleCreateUser`. -/
def handleCreateUser (env : Env) : HandlerFunc := fun r s =>
  match r.Body with
  | none => { s with w := SendJSON env.enc s.w { Error := "invalid body" } 422 }
  | some userPayload =>
    match PrepareUser env userPayload s with
    | (some err, _, s) =>
      match err with
      | .MissingField missingFields =>
        { s with w := SendJSON env.enc s.w { Error := missingFields.Error } 400 }
      | _ =>
        if err = .ErrPasswordTooLong then
          { s with w := SendJSON env.enc s.w { Error := "password is bigger than requested" } 400 }
        else
          { s with w := SendJSON env.enc s.w { Error := "something went wrong" } 500 }
    | (none, userPayload, s) =>
      let s := s.call (.CreateUser userPayload)
      match env.q.CreateUser userPayload with
      | .error _ => { s with w := SendJSON env.enc s.w { Error := "something went wrong" } 500 }
      | .ok userResponse =>
        { s with w := SendJSON env.enc s.w { Data := some (.UserResponsePtr userResponse) } 201 }

/-- Go `(*handler).handleGetUsers`. -/
def handleGetUsers (env : Env) : HandlerFunc := fun r s =>
  let param := env.ToLower r.user
  let s := s.call (.GetUsers param)
  match env.q.GetUsers param with
  | .error _ => { s with w := SendJSON env.enc s.w { Error := "something went wrong" } 500 }
  | .ok none => { s with w := SendJSON env.enc s.w { Data := some (.UserResponses []) } 200 }
  | .ok (some users) =>
    { s with w := SendJSON env.enc s.w { Data := some (.UserResponses users) } 200 }

/-- Go `(*handler).handleGetUserByID`. -/
def handleGetUserByID (env : Env) : HandlerFunc := fun r s =>
  let param := r.id
  match env.uuidParse param with
  | .error _ => { s with w := SendJSON env.enc s.w { Error := "invalid uuid" } 400 }
  | .ok id =>
    let s := s.call (.GetUserByID id)
    match env.q.GetUserByID id with
    | .error err =>
      if err = .ErrNoRows then
        { s with w := SendJSON env.enc s.w { Error := "user not found" } 404 }
      else
        { s with w := SendJSON env.enc s.w { Error := "something went wrong" } 500 }
    | .ok user => { s with w := SendJSON env.enc s.w { Data := some (.UserResponse user) } 200 }

/-- Go `(*handler).handleUpdateUser`. -/
def handleUpdateUser (env : Env) : HandlerFunc := fun r s =>
  let param := r.id
  let (id, w) := VerifyUUID env.enc env.uuidParse s.w param
  let s := { s with w := w }
  if id = uuidNil then s
  else
    match r.Body with
    | none => { s with w := SendJSON env.enc s.w { Error := "invalid body" } 422 }
    | some data =>
      let s := s.call (.UpdateUser id data)
      match env.q.UpdateUser id data with
      | some err =>
        if err = .ErrNoRows then
          { s with w := SendJSON env.enc s.w { Error := "user not found" } 404 }
        else
          { s with w := SendJSON env.enc s.w { Error := "something went wrong" } 500 }
      | none => { s with w := SendJSON env.enc s.w { Data := none } 204 }

/-- Go `(*handler).handleDeleteUser`. -/
def handleDeleteUser (env : Env) : HandlerFunc := fun r s =>
  let param := r.id
  let (id, w) := VerifyUUID env.enc env.uuidParse s.w param
  let s := { s with w := w }
  if id = uuidNil then s
  else
    let s := s.call (.DeleteUser id)
    match env.q.DeleteUser id with
    | some err =>
      if err = .ErrNoRows then
        { s with w := SendJSON env.enc s.w { Error := "user not found" } 404 }
      else
        { s with w := SendJSON env.enc s.w { Error := "something went wrong" } 500 }
    | none => { s with w := SendJSON env.enc s.w { Data := none } 204 }

/-! ## internal/middleware -/

/-- Go `middleware.Authentication`. The subject is the value of the map at `"sub"`, nil
when the key is absent; the comparison with the path parameter holds only for a string of
the same content. The type assertion on the claims panics when they are not a map. -/
def Authentication (env : Env) (next : HandlerFunc) : HandlerFunc := fun r s =>
  let header := r.Authorization
  match ValidateToken env.jwtParse env.secret header with
  | .error _ => { s with w := s.w ++ [.WriteHeader 401] }
  | .ok token =>
    let userId := r.id
    match token.Claims with
    | .MapClaims m =>
      let sub := m.lookup "sub"
      if some (ClaimValue.str userId) ≠ sub then { s with w := s.w ++ [.WriteHeader 403] }
      else next r s
    | _ => { s with panicked := true }

/-! ## Definitions used to state the properties -/

/-- The calls one `SendJSON` makes on the writer: the status and the encoded envelope, or
status 500 and the generic error envelope when the data does not encode. -/
def sent (enc : Any → Option String) (resp : Response) (status : Nat) : List WEvent :=
  match Marshal enc resp with
  | some data => [.WriteHeader status, .Write data]
  | none => [.WriteHeader 500, .Write { data := none, error := some "something went wrong" }]

/-- The checks `ValidateToken` applies to what the parser returns. -/
def checkParsed (parsed : Except GoError Token) : Except GoError Token :=
  match parsed with
  | .error err => .error err
  | .ok token =>
    match token.Claims with
    | .MapClaims _ => if token.Valid then .ok token else .error (.New "invalid token")
    | _ => .error (.New "invalid token")

/-- The four fields of a creation payload under their names. -/
def payloadFields (p : UserPayload) : List (String × String) :=
  [("name", p.Name), ("nick", p.Nick), ("email", p.Email), ("password", p.Password)]

/-- Exactly one member of the envelope is present. -/
def Body.exactlyOne (b : Body) : Prop :=
  (b.data.isSome ∧ b.error = none) ∨ (b.data = none ∧ b.error.isSome)

/-- One response was written and exactly one member of its envelope is present. -/
def oneResponseOneMember (evs : List WEvent) : Prop :=
  ∃ status body, evs = [.WriteHeader status, .Write body] ∧ status ≠ 204 ∧ body.exactlyOne

/-- Nothing was written, or one response was written whose envelope has exactly one
member, or one response with status 204 was written whose envelope has no member. -/
def atMostOneMember (evs : List WEvent) : Prop :=
  evs = [] ∨ oneResponseOneMember evs ∨
    evs = [.WriteHeader 204, .Write { data := none, error := none }]

/-- A store whose every method fails with `err`. -/
def failingStore (err : GoError) : Store :=
  { CreateUser := fun _ => .error err
    GetUsers := fun _ => .error err
    GetUserByID := fun _ => .error err
    UpdateUser := fun _ _ => some err
    DeleteUser := fun _ => some err
    GetUserByEmail := fun _ => .error err }

/-- A store whose every method succeeds: it holds one user under every identifier. -/
def succeedingStore : Store :=
  { CreateUser := fun u => .ok (NewUserResponse (List.replicate 16 1) u ⟨0, 0⟩)
    GetUsers := fun _ => .ok none
    GetUserByID := fun id => .ok ⟨id, "Ann", "a1", "ann@x.com", ⟨0, 0⟩⟩
    UpdateUser := fun _ _ => none
    DeleteUser := fun _ => none
    GetUserByEmail := fun _ => .ok (List.replicate 16 1, "secret123") }

/-- A stand-in for bcrypt that keeps its limit of 72 bytes on the input. -/
def limitedHasher (password : String) : Except GoError String :=
  if (goBytes password).length > 72 then .error .ErrPasswordTooLong
  else .ok ("$2a$10$" ++ password)

/-- A stand-in for the JWT parser: the token string is taken as the subject of a valid
HS256 token, after the key function has been asked for the key. -/
def subjectParser : JwtParse := fun tokenString keyFunc =>
  let token : Token :=
    { Method := .HS256, Header := [("typ", "JWT"), ("alg", "HS256")],
      Claims := .MapClaims [("sub", .str tokenString)], Valid := true }
  match keyFunc token with
  | .error err => .error err
  | .ok _ => .ok token

/-- An environment over the given store, with the stand-in collaborators. -/
def sampleEnv (q : Store) : Env :=
  { q := q
    enc := fun _ => some "data"
    GenerateFromPassword := limitedHasher
    CompareHashAndPassword := fun hashed password =>
      if hashed = password then none else some (.Other "mismatch")
    uuidParse := uuidParse
    SignedString := fun _ _ => .ok "signed"
    jwtParse := subjectParser
    secret := "secret"
    now := ⟨1700000000, 5⟩
    ToLower := String.toLower }

/-! ## Theorems -/

/-- C3: `ValidateFields` equals the reference definition on every payload and mode, and it
succeeds exactly when name, nick and email are non-empty and the password is non-empty or
the mode is not the creation mode. -/
theorem ValidateFields_eq_spec (payload : UserPayload) (mode : String) :
    ValidateFields payload mode = ValidateFieldsSpec payload mode ∧
    (ValidateFields payload mode = none ↔
      payload.Name ≠ "" ∧ payload.Nick ≠ "" ∧ payload.Email ≠ "" ∧
        (payload.Password ≠ "" ∨ mode ≠ "cadastro")) := by
  constructor
  · unfold ValidateFields ValidateFieldsSpec requiredFieldsSpec
    by_cases h1 : payload.Name = "" <;> by_cases h2 : payload.Nick = "" <;>
      by_cases h3 : payload.Email = "" <;> by_cases h4 : payload.Password = "" <;>
      by_cases h5 : mode = "cadastro" <;> simp [List.find?, h1, h2, h3, h4, h5]
  · unfold ValidateFields
    by_cases h1 : payload.Name = "" <;> by_cases h2 : payload.Nick = "" <;>
      by_cases h3 : payload.Email = "" <;> by_cases h4 : payload.Password = "" <;>
      by_cases h5 : mode = "cadastro" <;> simp [h1, h2, h3, h4, h5]

/-! ### Helper lemmas -/

theorem SendJSON_eq (enc : Any → Option String) (w : ResponseWriter) (resp : Response)
    (status : Nat) : SendJSON enc w resp status = w ++ sent enc resp status := by
  unfold SendJSON
  split
  · next h =>
    have hs : sent enc resp status =
        [.WriteHeader 500, .Write { data := none, error := some "something went wrong" }] := by
      simp only [sent, h]
    rw [hs]
    unfold SendJSON
    split
    · next h2 => simp [Marshal] at h2
    · next data h2 =>
      simp [Marshal] at h2
      simp [← h2]
  · next data h =>
    have hs : sent enc resp status = [.WriteHeader status, .Write data] := by
      simp only [sent, h]
    rw [hs]

theorem sent_error (enc : Any → Option String) (msg : String) (status : Nat)
    (h : msg ≠ "") :
    sent enc { Error := msg } status =
      [.WriteHeader status, .Write { data := none, error := some msg }] := by
  simp [sent, Marshal, h]

theorem SplitChars_not_mem (sep : Char) (a : List Char) (h : sep ∉ a) :
    SplitChars sep a = [a] := by
  induction a with
  | nil => rfl
  | cons c cs ih =>
    have hc : c ≠ sep := fun e => h (by simp [e])
    have hcs : sep ∉ cs := fun e => h (by simp [e])
    simp [SplitChars, hc, ih hcs]

theorem SplitChars_append (sep : Char) (a b : List Char) (h : sep ∉ a) :
    SplitChars sep (a ++ sep :: b) = a :: SplitChars sep b := by
  induction a with
  | nil => simp [SplitChars]
  | cons c cs ih =>
    have hc : c ≠ sep := fun e => h (by simp [e])
    have hcs : sep ∉ cs := fun e => h (by simp [e])
    simp [SplitChars, hc, ih hcs]

theorem SplitChars_ne_nil (sep : Char) (l : List Char) : SplitChars sep l ≠ [] := by
  cases l with
  | nil => simp [SplitChars]
  | cons c cs =>
    simp only [SplitChars]
    split
    · simp
    · split <;> simp

theorem SplitChars_one (sep : Char) (l x : List Char) (h : SplitChars sep l = [x]) :
    l = x ∧ sep ∉ x := by
  induction l generalizing x with
  | nil =>
    simp [SplitChars] at h
    subst h
    simp
  | cons c cs ih =>
    by_cases hc : c = sep
    · simp [SplitChars, hc] at h
      exact absurd h.2 (SplitChars_ne_nil sep cs)
    · simp only [SplitChars, hc, if_false] at h
      cases hs : SplitChars sep cs with
      | nil => exact absurd hs (SplitChars_ne_nil sep cs)
      | cons p ps =>
        rw [hs] at h
        simp at h
        obtain ⟨hx, hps⟩ := h
        subst hps
        obtain ⟨h1, h2⟩ := ih p hs
        subst hx
        subst h1
        refine ⟨rfl, ?_⟩
        simp only [List.mem_cons, not_or]
        exact ⟨fun e => hc e.symm, h2⟩

theorem SplitChars_two (sep : Char) (l x y : List Char) (h : SplitChars sep l = [x, y]) :
    l = x ++ sep :: y ∧ sep ∉ x ∧ sep ∉ y := by
  induction l generalizing x with
  | nil => simp [SplitChars] at h
  | cons c cs ih =>
    by_cases hc : c = sep
    · simp only [SplitChars, hc, if_true] at h
      simp at h
      obtain ⟨hx, hy⟩ := h
      obtain ⟨h1, h2⟩ := SplitChars_one sep cs y hy
      subst hx
      subst h1
      simp [hc, h2]
    · simp only [SplitChars, hc, if_false] at h
      cases hs : SplitChars sep cs with
      | nil => exact absurd hs (SplitChars_ne_nil sep cs)
      | cons p ps =>
        rw [hs] at h
        simp at h
        obtain ⟨hx, hps⟩ := h
        subst hps
        obtain ⟨h1, h2, h3⟩ := ih p hs
        subst hx
        refine ⟨by simp [h1], ?_, h3⟩
        simp only [List.mem_cons, not_or]
        exact ⟨fun e => hc e.symm, h2⟩


theorem Split_two_iff (header first second : String) :
    Split header ' ' = [first, second] ↔
      header = first ++ " " ++ second ∧ ' ' ∉ first.data ∧ ' ' ∉ second.data := by
  constructor
  · intro h
    have h2 : SplitChars ' ' header.data = [first.data, second.data] := by
      have hm := congrArg (List.map String.data) h
      simpa [Split, Function.comp_def] using hm
    obtain ⟨h3, h4, h5⟩ := SplitChars_two ' ' _ _ _ h2
    refine ⟨?_, h4, h5⟩
    apply String.ext
    simp [h3]
  · rintro ⟨h1, h2, h3⟩
    subst h1
    have hd : (first ++ " " ++ second).data = first.data ++ ' ' :: second.data := by
      simp
    simp [Split, hd, SplitChars_append ' ' _ _ h2, SplitChars_not_mem ' ' _ h3]

/-- C2: `ValidateToken` hands a string to the JWT parser only when the header splits on
the space into exactly two parts, the first being "Bearer" and the second non-empty, and
that string is the second part; for every other header it fails with the same error
whatever the parser is. The header has that shape exactly when it is "Bearer " followed by
a non-empty string without a space; the six listed headers are rejected. -/
theorem ValidateToken_header_shape (Parse : JwtParse) (secret header : String) :
    (ValidateToken Parse secret header =
      match Split header ' ' with
      | [first, second] =>
        if first = "Bearer" ∧ second ≠ "" then
          checkParsed (Parse second (validateKeyfunc secret))
        else .error (.New "missing or invalid token")
      | _ => .error (.New "missing or invalid token")) ∧
    ((∃ second, Split header ' ' = ["Bearer", second] ∧ second ≠ "") ↔
      ∃ t, header = "Bearer " ++ t ∧ t ≠ "" ∧ ' ' ∉ t.data) ∧
    ValidateToken Parse secret "" = .error (.New "missing or invalid token") ∧
    ValidateToken Parse secret "Bearer" = .error (.New "missing or invalid token") ∧
    ValidateToken Parse secret "Bearer " = .error (.New "missing or invalid token") ∧
    ValidateToken Parse secret "bearer x" = .error (.New "missing or invalid token") ∧
    ValidateToken Parse secret "Bearer  x" = .error (.New "missing or invalid token") ∧
    ValidateToken Parse secret "Bearer x y" = .error (.New "missing or invalid token") := by
  refine ⟨?_, ?_, ?_, ?_, ?_, ?_, ?_, ?_⟩
  · unfold ValidateToken extractToken checkParsed
    generalize Split header ' ' = l
    match l with
    | [] => simp
    | [a] => simp
    | [a, b] =>
      by_cases ha : a = "Bearer" <;> by_cases hb : b = "" <;> simp [ha, hb]
      rcases Parse b (validateKeyfunc secret) with err | token
      · rfl
      · simp only
        cases token.Claims with
        | MapClaims m => cases token.Valid <;> simp
        | RegisteredClaims => simp
    | a :: b :: c :: rest => simp
  · constructor
    · rintro ⟨second, h, hne⟩
      obtain ⟨h1, _, h3⟩ := (Split_two_iff header "Bearer" second).1 h
      exact ⟨second, h1, hne, h3⟩
    · rintro ⟨t, h, hne, hsp⟩
      refine ⟨t, (Split_two_iff header "Bearer" t).2 ⟨h, by decide, hsp⟩, hne⟩
  all_goals
    have he : ∀ h : String, extractToken h = "" →
        ValidateToken Parse secret h = .error (.New "missing or invalid token") := by
      intro h hh
      simp [ValidateToken, hh]
    apply he
    decide

theorem ValidateToken_ok_claims (Parse : JwtParse) (secret header : String) (token : Token)
    (h : ValidateToken Parse secret header = .ok token) :
    ∃ m, token.Claims = .MapClaims m := by
  unfold ValidateToken at h
  simp only at h
  split at h
  · simp at h
  · split at h
    · simp at h
    · next t ht =>
      split at h
      · next m hm =>
        split at h
        · simp at h
        · simp at h
          subst h
          exact ⟨m, hm⟩
      · simp at h

/-- C1: when `ValidateToken` fails on the Authorization header the guard writes status 401
and its result does not depend on the wrapped handler; when it succeeds the claims are a
map, and the guard's result is the wrapped handler's result if the `sub` claim is a
string equal to the path parameter `id`, and status 403 independently of the wrapped
handler otherwise (absent or non-string subject included). A wrapped handler that
records its entry is entered if and only if validation succeeds and the subject is the
string `id`. -/
theorem Authentication_guard (env : Env) (r : Request) (s : State) :
    (match ValidateToken env.jwtParse env.secret r.Authorization with
     | .error _ =>
       ∀ next, Authentication env next r s = { s with w := s.w ++ [.WriteHeader 401] }
     | .ok token =>
       ∃ m, token.Claims = .MapClaims m ∧
         ∀ next, Authentication env next r s =
           if m.lookup "sub" = some (.str r.id) then next r s
           else { s with w := s.w ++ [.WriteHeader 403] }) ∧
    (Call.Next ∈ (Authentication env (fun _ st => st.call .Next) r { }).calls ↔
      ∃ token m, ValidateToken env.jwtParse env.secret r.Authorization = .ok token ∧
        token.Claims = .MapClaims m ∧ m.lookup "sub" = some (.str r.id)) := by
  constructor
  · cases hv : ValidateToken env.jwtParse env.secret r.Authorization with
    | error err =>
      intro next
      simp [Authentication, hv]
    | ok token =>
      obtain ⟨m, hm⟩ := ValidateToken_ok_claims _ _ _ _ hv
      refine ⟨m, hm, ?_⟩
      intro next
      simp only [Authentication, hv, hm]
      by_cases hsub : m.lookup "sub" = some (.str r.id)
      · simp [hsub]
      · have hsub2 : ¬ some (ClaimValue.str r.id) = List.lookup "sub" m := fun e => hsub e.symm
        simp [hsub, hsub2]
  · cases hv : ValidateToken env.jwtParse env.secret r.Authorization with
    | error err => simp [Authentication, hv]
    | ok token =>
      obtain ⟨m, hm⟩ := ValidateToken_ok_claims _ _ _ _ hv
      simp only [Authentication, hv, hm]
      by_cases hsub : m.lookup "sub" = some (.str r.id)
      · simp [hsub, State.call, hm]
      · have hsub2 : ¬ some (ClaimValue.str r.id) = List.lookup "sub" m := fun e => hsub e.symm
        simp only [ne_eq, hsub2, not_false_eq_true, if_true]
        simp only [List.not_mem_nil, false_iff, not_exists, not_and]
        intro token2 m2 h1 h2
        simp at h1
        subst h1
        rw [hm] at h2
        simp at h2
        subst h2
        exact hsub

/-- C4: when the decoded creation payload has exactly one empty field among name, nick,
email and password, `handleCreateUser` writes status 400 with the error text
"the field <f> is required" for that field and makes no call on a collaborator: neither
the password hasher nor the store's `CreateUser` is called. -/
theorem handleCreateUser_missing_field (env : Env) (r : Request) (s : State)
    (p : UserPayload) (f : String) (hbody : r.Body = some p)
    (hone : (payloadFields p).filter (fun x => x.2 = "") = [(f, "")]) :
    handleCreateUser env r s =
      { s with w := s.w ++ [.WriteHeader 400,
          .Write { data := none, error := some ("the field " ++ f ++ " is required") }] } ∧
    (handleCreateUser env r s).calls = s.calls ∧
    (∀ password, Call.EncryptPassword password ∉ (handleCreateUser env r { }).calls) ∧
    (∀ u, Call.CreateUser u ∉ (handleCreateUser env r { }).calls) := by
  have key : handleCreateUser env r s =
      { s with w := s.w ++ [.WriteHeader 400,
          .Write { data := none, error := some ("the field " ++ f ++ " is required") }] } ∧
      handleCreateUser env r { } =
      { w := [.WriteHeader 400,
          .Write { data := none, error := some ("the field " ++ f ++ " is required") }] } := by
    obtain ⟨n, k, e, pw⟩ := p
    simp only [payloadFields] at hone
    by_cases h1 : n = "" <;> by_cases h2 : k = "" <;> by_cases h3 : e = "" <;>
      by_cases h4 : pw = "" <;>
      simp [List.filter, h1, h2, h3, h4] at hone <;>
      subst hone <;>
      simp [handleCreateUser, hbody, PrepareUser, ValidateFields, h1, h2, h3, h4,
        SendJSON_eq, sent, Marshal] <;>
      decide
  refine ⟨key.1, ?_, ?_, ?_⟩
  · rw [key.1]
  · intro password
    rw [key.2]
    simp
  · intro u
    rw [key.2]
    simp

/-- Witness for C4: a payload whose only empty field is the nick. -/
theorem handleCreateUser_missing_field_witness :
    (payloadFields ⟨"Ann", "", "ann@x.com", "secret123"⟩).filter (fun x => x.2 = "")
        = [("nick", "")] ∧
    handleCreateUser (sampleEnv succeedingStore)
        { Body := some ⟨"Ann", "", "ann@x.com", "secret123"⟩ } { } =
      { w := [.WriteHeader 400,
          .Write { data := none, error := some "the field nick is required" }] } :=
  ⟨by decide,
    (handleCreateUser_missing_field (sampleEnv succeedingStore)
      { Body := some ⟨"Ann", "", "ann@x.com", "secret123"⟩ } { }
      ⟨"Ann", "", "ann@x.com", "secret123"⟩ "nick" rfl (by decide)).1⟩

theorem Time_Add_two_hours (now : Time) (h0 : 0 ≤ now.nsec) (h1 : now.nsec < 1000000000) :
    (now.Add (Hour * 2)).Unix = now.Unix + 7200 := by
  have hd : Int.tdiv (Hour * 2) 1000000000 = 7200 := by decide
  have hm : Int.tmod (Hour * 2) 1000000000 = 0 := by decide
  simp only [Time.Add, Time.Unix, hd, hm, add_zero]
  have h2 : ¬ now.nsec ≥ 1000000000 := by omega
  have h3 : ¬ now.nsec < 0 := by omega
  simp [h2, h3]

/-- C10: for every subject and every current time, `GenerateToken` signs, with the
configured secret, the token made for the method HS256 whose claims are exactly
`sub` = the subject, `iss` = "devbook" and `exp` = the current Unix second plus 7200;
and on a successful login `handleLogin` asks for the token of the string form of the
stored user's identifier and sends it. -/
theorem GenerateToken_claims (SignedString : JwtSign) (secret : String) (now : Time)
    (userId : String) (h0 : 0 ≤ now.nsec) (h1 : now.nsec < 1000000000) :
    GenerateToken SignedString secret now userId =
      SignedString
        { Method := .HS256, Header := [("typ", "JWT"), ("alg", "HS256")],
          Claims := .MapClaims
            [("exp", .int (now.Unix + 7200)), ("iss", .str "devbook"), ("sub", .str userId)],
          Valid := false }
        secret ∧
    SigningMethod.HS256.isHMAC = true ∧
    (∀ (env : Env) (r : Request) (s : State) (p : UserPayload) (id : UUID)
        (hashed : String),
      r.Body = some p → env.q.GetUserByEmail p.Email = .ok (id, hashed) →
      env.CompareHashAndPassword hashed p.Password = none →
      (handleLogin env r s).calls = s.calls ++ [.GetUserByEmail p.Email,
          .ValidatePasswords hashed p.Password, .GenerateToken (UUID.String id)] ∧
      (handleLogin env r s).w = s.w ++
        match GenerateToken env.SignedString env.secret env.now (UUID.String id) with
        | .ok token => sent env.enc { Data := some (.String token) } 200
        | .error _ => sent env.enc { Error := "something wetn wrong" } 500) := by
  refine ⟨?_, rfl, ?_⟩
  · simp only [GenerateToken, Time_Add_two_hours now h0 h1, NewWithClaims]
    rfl
  · intro env r s p id hashed hb hq hc
    simp only [handleLogin, hb, hq, ValidatePasswords, hc]
    cases GenerateToken env.SignedString env.secret env.now (UUID.String id) with
    | error err => simp [State.call, SendJSON_eq]
    | ok token => simp [State.call, SendJSON_eq]

/-- Witness for C10: the token for subject "7" issued at second 1700000000, with a signer
that accepts exactly the expected claim set. -/
theorem GenerateToken_claims_witness :
    (0 : Int) ≤ 5 ∧ (5 : Int) < 1000000000 ∧
    GenerateToken
      (fun t _ =>
        if t.Claims = .MapClaims
            [("exp", .int 1700007200), ("iss", .str "devbook"), ("sub", .str "7")]
        then .ok "signed" else .error (.Other "other claims"))
      "secret" ⟨1700000000, 5⟩ "7" = .ok "signed" := by
  refine ⟨by decide, by decide, ?_⟩
  rw [(GenerateToken_claims _ "secret" ⟨1700000000, 5⟩ "7" (by decide) (by decide)).1]
  decide

theorem MissingFieldError_Error_data (e : MissingFieldError) :
    e.Error.data = "the field ".data ++ (e.Field.data ++ ' ' :: e.Message.data) := by
  simp [MissingFieldError.Error, Sprintf, SprintfChars]

theorem MissingFieldError_Error_ne_empty (e : MissingFieldError) : e.Error ≠ "" := by
  intro h
  have hd := congrArg String.data h
  rw [MissingFieldError_Error_data] at hd
  simp at hd

theorem sent_one_member (enc : Any → Option String) (resp : Response) (status : Nat)
    (hs : status ≠ 204)
    (h : (resp.Data.isSome ∧ resp.Error = "") ∨ (resp.Data = none ∧ resp.Error ≠ "")) :
    oneResponseOneMember (sent enc resp status) := by
  obtain ⟨d, e⟩ := resp
  rcases h with ⟨h1, h2⟩ | ⟨h1, h2⟩
  · simp only at h1 h2
    subst h2
    cases d with
    | none => simp at h1
    | some d =>
      cases he : enc d with
      | none =>
        exact ⟨500, { data := none, error := some "something went wrong" },
          by simp [sent, Marshal, he], by decide, Or.inr ⟨rfl, rfl⟩⟩
      | some text =>
        exact ⟨status, { data := some text, error := none },
          by simp [sent, Marshal, he], hs, Or.inl ⟨rfl, rfl⟩⟩
  · simp only at h1 h2
    subst h1
    exact ⟨status, { data := none, error := some e },
      by simp [sent, Marshal, h2], hs, Or.inr ⟨rfl, rfl⟩⟩

theorem sent_error_one_member (enc : Any → Option String) (msg : String) (status : Nat)
    (hs : status ≠ 204) (h : msg ≠ "") :
    oneResponseOneMember (sent enc { Error := msg } status) :=
  sent_one_member enc _ status hs (Or.inr ⟨rfl, h⟩)

theorem sent_data_one_member (enc : Any → Option String) (d : Any) (status : Nat)
    (hs : status ≠ 204) :
    oneResponseOneMember (sent enc { Data := some d } status) :=
  sent_one_member enc _ status hs (Or.inl ⟨rfl, rfl⟩)

theorem sent_no_content (enc : Any → Option String) :
    sent enc { Data := none } 204 =
      [.WriteHeader 204, .Write { data := none, error := none }] := by
  simp [sent, Marshal]

theorem handleLogin_envelope (env : Env) (r : Request) (s : State) :
    ∃ evs, (handleLogin env r s).w = s.w ++ evs ∧ oneResponseOneMember evs := by
  simp only [handleLogin]
  repeat' split
  all_goals
    simp only [State.call, SendJSON_eq, List.append_cancel_left_eq, exists_eq_left']
    first
      | (apply sent_error_one_member <;> decide)
      | (apply sent_data_one_member; decide)

theorem handleCreateUser_envelope (env : Env) (r : Request) (s : State) :
    ∃ evs, (handleCreateUser env r s).w = s.w ++ evs ∧ oneResponseOneMember evs := by
  simp only [handleCreateUser, PrepareUser]
  cases hb : r.Body with
  | none =>
    simp only [State.call, SendJSON_eq, List.append_cancel_left_eq, exists_eq_left']
    apply sent_error_one_member <;> decide
  | some p =>
    cases hv : ValidateFields p "cadastro" with
    | some e =>
      simp only [hv, State.call, SendJSON_eq, List.append_cancel_left_eq, exists_eq_left']
      apply sent_error_one_member
      · decide
      · exact MissingFieldError_Error_ne_empty _
    | none =>
      cases hh : EncryptPassword env p.Password with
      | error err =>
        simp only [hv, hh]
        repeat' split
        all_goals
          simp only [State.call, SendJSON_eq, List.append_cancel_left_eq, exists_eq_left']
          first
            | (apply sent_error_one_member <;> decide)
            | (apply sent_error_one_member
               · decide
               · exact MissingFieldError_Error_ne_empty _)
      | ok hash =>
        simp only [hv, hh]
        split
        all_goals
          simp only [State.call, SendJSON_eq, List.append_cancel_left_eq, exists_eq_left']
          first
            | (apply sent_error_one_member <;> decide)
            | (apply sent_data_one_member; decide)

theorem handleGetUsers_envelope (env : Env) (r : Request) (s : State) :
    ∃ evs, (handleGetUsers env r s).w = s.w ++ evs ∧ oneResponseOneMember evs := by
  simp only [handleGetUsers]
  repeat' split
  all_goals
    simp only [State.call, SendJSON_eq, List.append_cancel_left_eq, exists_eq_left']
    first
      | (apply sent_error_one_member <;> decide)
      | (apply sent_data_one_member; decide)

theorem handleGetUserByID_envelope (env : Env) (r : Request) (s : State) :
    ∃ evs, (handleGetUserByID env r s).w = s.w ++ evs ∧ oneResponseOneMember evs := by
  simp only [handleGetUserByID]
  repeat' split
  all_goals
    simp only [State.call, SendJSON_eq, List.append_cancel_left_eq, exists_eq_left']
    first
      | (apply sent_error_one_member <;> decide)
      | (apply sent_data_one_member; decide)

theorem handleUpdateUser_envelope (env : Env) (r : Request) (s : State) :
    ∃ evs, (handleUpdateUser env r s).w = s.w ++ evs ∧ atMostOneMember evs := by
  simp only [handleUpdateUser, VerifyUUID]
  cases hp : env.uuidParse r.id with
  | error e =>
    simp only [if_true, SendJSON_eq, List.append_cancel_left_eq, exists_eq_left']
    refine Or.inr (Or.inl ?_)
    apply sent_error_one_member <;> decide
  | ok id =>
    simp only
    by_cases hid : id = uuidNil
    · simp only [hid, if_true]
      exact ⟨[], by simp, Or.inl rfl⟩
    · simp only [hid, if_false]
      repeat' split
      all_goals
        simp only [State.call, SendJSON_eq, List.append_cancel_left_eq, exists_eq_left']
        first
          | (refine Or.inr (Or.inl ?_); apply sent_error_one_member <;> decide)
          | exact Or.inr (Or.inr (sent_no_content _))

theorem handleDeleteUser_envelope (env : Env) (r : Request) (s : State) :
    ∃ evs, (handleDeleteUser env r s).w = s.w ++ evs ∧ atMostOneMember evs := by
  simp only [handleDeleteUser, VerifyUUID]
  cases hp : env.uuidParse r.id with
  | error e =>
    simp only [if_true, SendJSON_eq, List.append_cancel_left_eq, exists_eq_left']
    refine Or.inr (Or.inl ?_)
    apply sent_error_one_member <;> decide
  | ok id =>
    simp only
    by_cases hid : id = uuidNil
    · simp only [hid, if_true]
      exact ⟨[], by simp, Or.inl rfl⟩
    · simp only [hid, if_false]
      repeat' split
      all_goals
        simp only [State.call, SendJSON_eq, List.append_cancel_left_eq, exists_eq_left']
        first
          | (refine Or.inr (Or.inl ?_); apply sent_error_one_member <;> decide)
          | exact Or.inr (Or.inr (sent_no_content _))

theorem uuidParse_ones :
    uuidParse "11111111-1111-1111-1111-111111111111" = .ok (List.replicate 16 17) := by
  decide

theorem uuidParse_zero :
    uuidParse "00000000-0000-0000-0000-000000000000" = .ok uuidNil := by
  decide

/-- C5, counterexample: a successful delete sends, with status 204, an envelope in which
neither `data` nor `error` is present. -/
theorem envelope_neither_member :
    (handleDeleteUser (sampleEnv succeedingStore)
        { id := "11111111-1111-1111-1111-111111111111" } { }).w =
      [.WriteHeader 204, .Write { data := none, error := none }] ∧
    ¬ Body.exactlyOne { data := none, error := none } := by
  constructor
  · simp [handleDeleteUser, VerifyUUID, sampleEnv, uuidParse_ones, succeedingStore,
      State.call, SendJSON_eq, sent, Marshal]
    decide
  · simp [Body.exactlyOne]

/-- C5, amended: every handler sends at most one envelope through `SendJSON` and never one
with both members. `handleLogin`, `handleCreateUser`, `handleGetUsers` and
`handleGetUserByID` always send one response, with a status other than 204 and exactly
one of `data` and `error` present; `handleUpdateUser` and `handleDeleteUser` send either
nothing, or such a response, or status 204 with an envelope that has neither member. -/
theorem envelope_at_most_one_member (env : Env) (r : Request) (s : State) :
    (∃ evs, (handleLogin env r s).w = s.w ++ evs ∧ oneResponseOneMember evs) ∧
    (∃ evs, (handleCreateUser env r s).w = s.w ++ evs ∧ oneResponseOneMember evs) ∧
    (∃ evs, (handleGetUsers env r s).w = s.w ++ evs ∧ oneResponseOneMember evs) ∧
    (∃ evs, (handleGetUserByID env r s).w = s.w ++ evs ∧ oneResponseOneMember evs) ∧
    (∃ evs, (handleUpdateUser env r s).w = s.w ++ evs ∧ atMostOneMember evs) ∧
    (∃ evs, (handleDeleteUser env r s).w = s.w ++ evs ∧ atMostOneMember evs) :=
  ⟨handleLogin_envelope env r s, handleCreateUser_envelope env r s,
    handleGetUsers_envelope env r s, handleGetUserByID_envelope env r s,
    handleUpdateUser_envelope env r s, handleDeleteUser_envelope env r s⟩

/-- C6: in `handleLogin` a store error other than not-found, and a signing error, are
answered with status 500 and the error text "something wetn wrong", which is not the
generic message "something went wrong" the other handlers send. -/
theorem handleLogin_internal_error_text :
    (handleLogin (sampleEnv (failingStore (.Other "connection refused")))
        { Body := some ⟨"", "", "ann@x.com", "secret123"⟩ } { }).w =
      [.WriteHeader 500, .Write { data := none, error := some "something wetn wrong" }] ∧
    (handleLogin
        { sampleEnv succeedingStore with SignedString := fun _ _ => .error (.Other "key") }
        { Body := some ⟨"", "", "ann@x.com", "secret123"⟩ } { }).w =
      [.WriteHeader 500, .Write { data := none, error := some "something wetn wrong" }] ∧
    (handleGetUserByID (sampleEnv (failingStore (.Other "connection refused")))
        { id := "11111111-1111-1111-1111-111111111111" } { }).w =
      [.WriteHeader 500, .Write { data := none, error := some "something went wrong" }] ∧
    "something wetn wrong" ≠ "something went wrong" := by
  refine ⟨?_, ?_, ?_, by decide⟩
  · simp [handleLogin, sampleEnv, failingStore, State.call, SendJSON_eq, sent, Marshal]
  · simp [handleLogin, sampleEnv, succeedingStore, State.call, SendJSON_eq, sent, Marshal,
      ValidatePasswords, GenerateToken]
  · simp [handleGetUserByID, sampleEnv, failingStore, uuidParse_ones, State.call,
      SendJSON_eq, sent, Marshal]

/-- C7, counterexample: a creation payload that passes field validation and whose password
has 73 bytes, so that hashing fails with the too-long error, is answered with status 400,
not 500. -/
theorem handleCreateUser_password_too_long :
    ValidateFields ⟨"Ann", "a1", "ann@x.com", "aaaaaaaaaaaaaaaaaaaaaaaaaaaaaaaaaaaaaaaaaaaaaaaaaaaaaaaaaaaaaaaaaaaaaaaaa"⟩ "cadastro" = none ∧
    limitedHasher "aaaaaaaaaaaaaaaaaaaaaaaaaaaaaaaaaaaaaaaaaaaaaaaaaaaaaaaaaaaaaaaaaaaaaaaaa" = .error .ErrPasswordTooLong ∧
    handleCreateUser (sampleEnv succeedingStore)
        { Body := some ⟨"Ann", "a1", "ann@x.com", "aaaaaaaaaaaaaaaaaaaaaaaaaaaaaaaaaaaaaaaaaaaaaaaaaaaaaaaaaaaaaaaaaaaaaaaaa"⟩ } { } =
      { w := [.WriteHeader 400,
          .Write { data := none, error := some "password is bigger than requested" }],
        calls := [.EncryptPassword "aaaaaaaaaaaaaaaaaaaaaaaaaaaaaaaaaaaaaaaaaaaaaaaaaaaaaaaaaaaaaaaaaaaaaaaaa"] } := by
  have h1 : ValidateFields ⟨"Ann", "a1", "ann@x.com", "aaaaaaaaaaaaaaaaaaaaaaaaaaaaaaaaaaaaaaaaaaaaaaaaaaaaaaaaaaaaaaaaaaaaaaaaa"⟩ "cadastro" = none := by decide
  have h2 : limitedHasher "aaaaaaaaaaaaaaaaaaaaaaaaaaaaaaaaaaaaaaaaaaaaaaaaaaaaaaaaaaaaaaaaaaaaaaaaa" = .error .ErrPasswordTooLong := by decide
  refine ⟨h1, h2, ?_⟩
  simp [handleCreateUser, PrepareUser, h1, EncryptPassword, sampleEnv, h2, State.call,
    SendJSON_eq, sent, Marshal]

/-- C7, amended: let the hasher never fail with a missing-field error. For every creation
payload that passes field validation and whose password hashing fails, `handleCreateUser`
calls the hasher and nothing else (the store is not called); it answers 400 with
"password is bigger than requested" when the failure is the too-long error and 500 with
the generic message for every other failure. It answers 400 only for a missing field or a
too-long password. -/
theorem handleCreateUser_hashing_failure (env : Env)
    (hbcrypt : ∀ password e, env.GenerateFromPassword password ≠ .error (.MissingField e)) :
    (∀ (r : Request) (s : State) (p : UserPayload) (err : GoError),
      r.Body = some p → ValidateFields p "cadastro" = none →
      env.GenerateFromPassword p.Password = .error err →
      (handleCreateUser env r s).calls = s.calls ++ [.EncryptPassword p.Password] ∧
      (handleCreateUser env r s).w = s.w ++
        if err = .ErrPasswordTooLong then
          [.WriteHeader 400,
            .Write { data := none, error := some "password is bigger than requested" }]
        else
          [.WriteHeader 500, .Write { data := none, error := some "something went wrong" }]) ∧
    (∀ (r : Request) (s : State) (evs : List WEvent),
      (handleCreateUser env r s).w = s.w ++ evs → WEvent.WriteHeader 400 ∈ evs →
      ∃ p, r.Body = some p ∧
        (ValidateFields p "cadastro" ≠ none ∨
          env.GenerateFromPassword p.Password = .error .ErrPasswordTooLong)) := by
  constructor
  · intro r s p err hb hv hh
    have hmf : ∀ e, err ≠ .MissingField e := fun e he => hbcrypt _ e (he ▸ hh)
    simp only [handleCreateUser, hb, PrepareUser, hv, EncryptPassword, hh]
    cases err with
    | MissingField e => exact absurd rfl (hmf e)
    | ErrPasswordTooLong => simp [State.call, SendJSON_eq, sent, Marshal]
    | New msg => simp [State.call, SendJSON_eq, sent, Marshal]
    | ErrNoRows => simp [State.call, SendJSON_eq, sent, Marshal]
    | UnexpectedSigningMethod alg => simp [State.call, SendJSON_eq, sent, Marshal]
    | Other msg => simp [State.call, SendJSON_eq, sent, Marshal]
  · intro r s evs hw hmem
    cases hb : r.Body with
    | none =>
      simp [handleCreateUser, hb, SendJSON_eq, sent, Marshal] at hw
      subst hw
      simp at hmem
    | some p =>
      refine ⟨p, rfl, ?_⟩
      cases hv : ValidateFields p "cadastro" with
      | some e => exact Or.inl (by simp)
      | none =>
        right
        cases hh : env.GenerateFromPassword p.Password with
        | error err =>
          have hmf : ∀ e, err ≠ .MissingField e := fun e he => hbcrypt _ e (he ▸ hh)
          simp only [handleCreateUser, hb, PrepareUser, hv, EncryptPassword, hh] at hw
          cases err with
          | MissingField e => exact absurd rfl (hmf e)
          | ErrPasswordTooLong => rfl
          | New msg =>
            simp [State.call, SendJSON_eq, sent, Marshal] at hw
            subst hw
            simp at hmem
          | ErrNoRows =>
            simp [State.call, SendJSON_eq, sent, Marshal] at hw
            subst hw
            simp at hmem
          | UnexpectedSigningMethod alg =>
            simp [State.call, SendJSON_eq, sent, Marshal] at hw
            subst hw
            simp at hmem
          | Other msg =>
            simp [State.call, SendJSON_eq, sent, Marshal] at hw
            subst hw
            simp at hmem
        | ok hash =>
          simp only [handleCreateUser, hb, PrepareUser, hv, EncryptPassword, hh] at hw
          cases hc : env.q.CreateUser { p with Password := hash } with
          | error e2 =>
            simp [hc, State.call, SendJSON_eq, sent, Marshal] at hw
            subst hw
            simp at hmem
          | ok u =>
            simp only [hc, State.call, SendJSON_eq, sent, Marshal] at hw
            cases he : env.enc (.UserResponsePtr u) with
            | none =>
              simp [he] at hw
              subst hw
              simp at hmem
            | some text =>
              simp [he] at hw
              subst hw
              simp at hmem

/-- Witness for C7: a hasher that fails for an internal reason on a valid payload. -/
theorem handleCreateUser_hashing_failure_witness :
    (∀ password e,
      (fun _ => Except.error (GoError.Other "entropy") : String → Except GoError String)
        password ≠ .error (.MissingField e)) ∧
    (handleCreateUser
        { sampleEnv succeedingStore with
          GenerateFromPassword := fun _ => .error (.Other "entropy") }
        { Body := some ⟨"Ann", "a1", "ann@x.com", "secret123"⟩ } { }).w =
      [.WriteHeader 500, .Write { data := none, error := some "something went wrong" }] :=
  ⟨by simp,
    by
      have h := ((handleCreateUser_hashing_failure
        { sampleEnv succeedingStore with
          GenerateFromPassword := fun _ => .error (.Other "entropy") }
        (by simp)).1
        { Body := some ⟨"Ann", "a1", "ann@x.com", "secret123"⟩ } { }
        ⟨"Ann", "a1", "ann@x.com", "secret123"⟩ (.Other "entropy") rfl (by decide) rfl).2
      simpa using h⟩

theorem GetUsersQuery_data (param : String) :
    (GetUsersQuery param).data =
      "SELECT id, name, nick, email, created_at FROM users WHERE name ILIKE '%".data ++
        (param.data ++ ("%' OR nick ILIKE '%".data ++ (param.data ++ "%'".data))) := by
  simp [GetUsersQuery, Sprintf, SprintfChars]

/-- C8: the statement text `GetUsers` sends to the database contains the query parameter.
Two parameters give two different statements, a parameter with a quote changes the
condition of the statement, and no value is bound; `GetUserByID` sends one fixed text
with the identifier bound. -/
theorem GetUsers_statement_contains_param :
    GetUsersQuery "a" ≠ GetUsersQuery "b" ∧
    GetUsersQuery "x' or '1'='1" =
      "SELECT id, name, nick, email, created_at FROM users WHERE name ILIKE '%x' or '1'='1%' OR nick ILIKE '%x' or '1'='1%'" ∧
    PgStore.GetUsers (fun sql args => .error (.Other (sql ++ toString args.length))) "a" =
      .error (.Other
        "SELECT id, name, nick, email, created_at FROM users WHERE name ILIKE '%a%' OR nick ILIKE '%a%'0") ∧
    (GetUserByIDQuery uuidNil).1 = (GetUserByIDQuery (List.replicate 16 17)).1 := by
  refine ⟨by decide, by decide, ?_, rfl⟩
  simp [PgStore.GetUsers]
  decide

/-- C9: for the path identifier `00000000-0000-0000-0000-000000000000`, which parses to
the nil identifier, `handleUpdateUser` and `handleDeleteUser` write no response and make
no call on the store, while `handleGetUserByID` calls the store with that identifier and
answers from its result. -/
theorem nil_uuid_writes_no_response :
    uuidParse "00000000-0000-0000-0000-000000000000" = .ok uuidNil ∧
    handleUpdateUser (sampleEnv succeedingStore)
        { id := "00000000-0000-0000-0000-000000000000",
          Body := some ⟨"Ann", "", "", ""⟩ } { } = { w := [], calls := [] } ∧
    handleDeleteUser (sampleEnv succeedingStore)
        { id := "00000000-0000-0000-0000-000000000000" } { } = { w := [], calls := [] } ∧
    handleGetUserByID (sampleEnv succeedingStore)
        { id := "00000000-0000-0000-0000-000000000000" } { } =
      { w := [.WriteHeader 200, .Write { data := some "data", error := none }],
        calls := [.GetUserByID uuidNil] } := by
  refine ⟨uuidParse_zero, ?_, ?_, ?_⟩
  · simp [handleUpdateUser, VerifyUUID, sampleEnv, uuidParse_zero]
  · simp [handleDeleteUser, VerifyUUID, sampleEnv, uuidParse_zero]
  · simp [handleGetUserByID, sampleEnv, uuidParse_zero, succeedingStore, State.call,
      SendJSON_eq, sent, Marshal]

/-- Whatever the collaborators are, an identifier that parses to the nil identifier makes
`handleUpdateUser` and `handleDeleteUser` return without a response or a store call. -/
theorem nil_uuid_returns_early (env : Env) (r : Request) (s : State)
    (h : env.uuidParse r.id = .ok uuidNil) :
    handleUpdateUser env r s = s ∧ handleDeleteUser env r s = s := by
  simp [handleUpdateUser, handleDeleteUser, VerifyUUID, h]

/-- For every identifier that does not parse, and every one that parses to something else
than the nil identifier, `handleDeleteUser` writes one response: 400 without a store
call in the first case, and 204, 404 or 500 after the store call in the second. -/
theorem handleDeleteUser_other_ids (env : Env) (r : Request) (s : State) :
    (∀ e, env.uuidParse r.id = .error e →
      handleDeleteUser env r s =
        { s with w := s.w ++ [.WriteHeader 400,
            .Write { data := none, error := some "invalid uuid" }] }) ∧
    (∀ id, env.uuidParse r.id = .ok id → id ≠ uuidNil →
      (handleDeleteUser env r s).calls = s.calls ++ [.DeleteUser id] ∧
      ∃ status body, (handleDeleteUser env r s).w = s.w ++ [.WriteHeader status, .Write body] ∧
        (status = 204 ∨ status = 404 ∨ status = 500)) := by
  constructor
  · intro e h
    simp [handleDeleteUser, VerifyUUID, h, SendJSON_eq, sent, Marshal]
  · intro id h hid
    simp only [handleDeleteUser, VerifyUUID, h, hid, if_false]
    cases hd : env.q.DeleteUser id with
    | none => simp [State.call, SendJSON_eq, sent, Marshal]
    | some err =>
      by_cases he : err = .ErrNoRows
      · simp [he, State.call, SendJSON_eq, sent, Marshal]
      · simp [he, State.call, SendJSON_eq, sent, Marshal]

end Devbook
